import Mathlib

/-!
Shallow embedding of the Dify workflow client (`sdk/dify.js` and the route
table / `sendRequest` helper of the second source file).

The client's interesting logic is:
  * `sendRequest` / `_request`: HTTP response handling (error message on a
    non-2xx status, stream hand-off, best-effort JSON body parse);
  * the SSE reassembler inside `getWorkflowResult` (streaming path): an
    incremental line splitter over the byte stream plus a per-line handler
    that captures the last truthy `workflow_run_id`;
  * the result reconciler after the stream ends (follow-up fetch keyed by
    the captured identifier, defensive parse of a possibly string-encoded
    `outputs` field);
  * the blocking (non-streaming) path of `getWorkflowResult`;
  * the `info` method with its catch-all placeholder name.

JavaScript's `JSON.parse` is a platform builtin, so it is modelled as an
explicit function parameter `parse : String → Option Json` (`none` models a
parse exception).  External HTTP exchanges are likewise parameters: an
`HttpResponse` record for `sendRequest`, and a `fetch : Json → Json`
function giving the `data` field of the follow-up result response.
-/

namespace DifySdk

/-- JSON values as produced by `JSON.parse`.  Numbers are modelled as
integers; no arithmetic on them occurs anywhere in the client, they are only
tested for truthiness.  Objects carry their key/value pairs in order. -/
inductive Json where
  | null
  | bool (b : Bool)
  | num (n : Int)
  | str (s : String)
  | arr (elems : List Json)
  | obj (fields : List (String × Json))

/-- JavaScript truthiness of a JSON value (`null`, `false`, `0` and the
empty string are falsy; arrays and objects are always truthy). -/
def jsTruthy : Json → Bool
  | .null => false
  | .bool b => b
  | .num n => n != 0
  | .str s => s != ""
  | .arr _ => true
  | .obj _ => true

/-- Property access `j.key`: defined on objects, `none` (JS `undefined`)
otherwise.  This also models the optional chaining `j?.key` used in the
source, since `getField` of a non-object is `none`. -/
def getField : Json → String → Option Json
  | .obj fields, key => fields.lookup key
  | _, _ => none

/-- Truthiness of a possibly-undefined value, as in `if (x)` where `x` may
be `undefined`. -/
def jsTruthyOpt : Option Json → Bool
  | some v => jsTruthy v
  | none => false

/-- JavaScript `a || b` where `a` may be `undefined`: `a` when truthy,
otherwise `b`. -/
def jsOr (a : Option Json) (b : Json) : Json :=
  match a with
  | some v => if jsTruthy v then v else b
  | none => b

/-- The white-space class recognised by JavaScript's `trim`/`trimEnd`
(ECMAScript WhiteSpace and LineTerminator code points). -/
def jsWhitespace (c : Char) : Bool :=
  c == ' ' || c == '\t' || c == '\n' || c == '\r' ||
  c.val == 11 || c.val == 12 || c.val == 0xa0 || c.val == 0x1680 ||
  (0x2000 ≤ c.val && c.val ≤ 0x200a) ||
  c.val == 0x2028 || c.val == 0x2029 || c.val == 0x202f || c.val == 0x205f ||
  c.val == 0x3000 || c.val == 0xfeff

/-- `String.prototype.trimEnd`, on the character list of a line. -/
def jsTrimEnd (l : List Char) : List Char :=
  (l.reverse.dropWhile jsWhitespace).reverse

/-- `String.prototype.trim`, on the character list of a payload. -/
def jsTrim (l : List Char) : List Char :=
  jsTrimEnd (l.dropWhile jsWhitespace)

/-- Lines 137–139 of `sdk/dify.js`:
`if (ev?.workflow_run_id) task_id = ev.workflow_run_id;` —
the captured identifier is overwritten only by a truthy field value. -/
def applyEvent (task_id : Json) (ev : Json) : Json :=
  match getField ev "workflow_run_id" with
  | some v => if jsTruthy v then v else task_id
  | none => task_id

/-- The body of the inner `while` loop of `readAll` (lines 124–155 of
`sdk/dify.js`) acting on one raw logical line (the slice of the buffer up
to, excluding, the next newline): right-trim, skip blank and `:`-comment
lines, and on a `data:` line strip the prefix, drop the `[DONE]` sentinel,
and otherwise try to parse the payload, capturing a truthy
`workflow_run_id`.  A parse failure (`parse _ = none`, the `catch` branch)
leaves the state untouched. -/
def handleLine (parse : String → Option Json) (task_id : Json) (raw : List Char) : Json :=
  let line := jsTrimEnd raw
  if line.isEmpty then task_id
  else if line.head? = some ':' then task_id
  else if "data:".data.isPrefixOf line then
    let dataStr := jsTrim (line.drop 5)
    if dataStr = "[DONE]".data then task_id
    else
      match parse dataStr.asString with
      | some ev => applyEvent task_id ev
      | none => task_id
  else task_id

/-- Observation function: the successfully parsed event carried by a raw
line, if the line reaches the `JSON.parse` step and that step succeeds.
Mirrors the branch structure of `handleLine`. -/
def lineEvent (parse : String → Option Json) (raw : List Char) : Option Json :=
  let line := jsTrimEnd raw
  if line.isEmpty then none
  else if line.head? = some ':' then none
  else if "data:".data.isPrefixOf line then
    let dataStr := jsTrim (line.drop 5)
    if dataStr = "[DONE]".data then none
    else parse dataStr.asString
  else none

/-- The `while ((idx = buffer.indexOf "\n") >= 0)` splitter: complete
lines (text before each newline, in order) and the remaining partial line
kept as the new buffer. -/
def extractLines : List Char → List (List Char) × List Char
  | [] => ([], [])
  | c :: rest =>
    if c = '\n' then
      let p := extractLines rest
      ([] :: p.1, p.2)
    else
      let p := extractLines rest
      match p.1 with
      | [] => ([], c :: p.2)
      | l :: ls => ((c :: l) :: ls, p.2)

/-- Per-call state of the SSE reassembler: the partial-line buffer and the
captured run identifier (`let buffer = ""; let task_id = "";`).  The
identifier is `Json`-valued because the source assigns it whatever value
the `workflow_run_id` field holds. -/
structure SSEState where
  buffer : List Char
  task_id : Json

/-- Processing of one decoded chunk (one iteration of the outer `while` of
`readAll`): append to the buffer, then run the inner loop over every
complete line. -/
def processChunk (parse : String → Option Json) (st : SSEState) (chunk : List Char) : SSEState :=
  let buf := st.buffer ++ chunk
  let p := extractLines buf
  { buffer := p.2, task_id := p.1.foldl (handleLine parse) st.task_id }

/-- Initial reassembler state. -/
def initState : SSEState :=
  { buffer := [], task_id := Json.str "" }

/-- The reassembler run over a whole decoded stream, given as the list of
chunks delivered by successive `reader.read()` calls. -/
def readAll (parse : String → Option Json) (chunks : List (List Char)) : SSEState :=
  chunks.foldl (processChunk parse) initState

/-- One answer of `reader.read()`: either a decoded chunk (`done: false`)
or the end-of-data signal (`done: true`). -/
inductive ReadResult where
  | chunk (s : List Char)
  | eos

/-- The outer `while (true)` loop of `readAll`: read, break on `done`,
otherwise process the chunk and continue.  Returns the final state together
with the reader answers left unconsumed after the loop breaks. -/
def readLoop (parse : String → Option Json) : SSEState → List ReadResult → SSEState × List ReadResult
  | st, [] => (st, [])
  | st, .eos :: rest => (st, rest)
  | st, .chunk c :: rest => readLoop parse (processChunk parse st c) rest

/-- The successfully parsed events observed while processing a chunk list
starting from a given partial-line buffer, in processing order. -/
def streamEventsAux (parse : String → Option Json) : List Char → List (List Char) → List Json
  | _, [] => []
  | buf, c :: cs =>
    let p := extractLines (buf ++ c)
    p.1.filterMap (lineEvent parse) ++ streamEventsAux parse p.2 cs

/-- The successfully parsed events of a whole stream. -/
def streamEvents (parse : String → Option Json) (chunks : List (List Char)) : List Json :=
  streamEventsAux parse [] chunks

/-- The `workflow_run_id` field values carried by a list of events (parsed
or not for truthiness), in order. -/
def runIdValues (events : List Json) : List Json :=
  events.filterMap (fun ev => getField ev "workflow_run_id")

/-- The returned value of `getWorkflowResult`; `text` is `Option`-valued
because `outputs?.text` may be `undefined`. -/
structure WorkflowResult where
  text : Option Json
  task_id : Json

/-- Lines 163–174 of `sdk/dify.js` (the result reconciler): fetch the final
record when the captured identifier is truthy (the `Bool` component records
whether the follow-up request was issued), otherwise synthesize
`{ data: { outputs: "" } }`; then defensively normalize `data.outputs`
(string values are `JSON.parse`d, a failure keeping the empty object) and
return `{ text: outputs?.text, task_id }`. -/
def reconcile (parse : String → Option Json) (fetch : Json → Json) (task_id : Json) :
    Bool × WorkflowResult :=
  let requested := jsTruthy task_id
  let data := if jsTruthy task_id then fetch task_id else Json.obj [("outputs", Json.str "")]
  let outputs : Json :=
    match getField data "outputs" with
    | some o =>
      if jsTruthy o then
        match o with
        | Json.str s => (parse s).getD (Json.obj [])
        | _ => o
      else Json.obj []
    | none => Json.obj []
  (requested, { text := getField outputs "text", task_id := task_id })

/-- The streaming path of `getWorkflowResult`: run the SSE reassembler over
the stream, then reconcile with the captured identifier. -/
def getWorkflowResultStream (parse : String → Option Json) (fetch : Json → Json)
    (chunks : List (List Char)) : Bool × WorkflowResult :=
  reconcile parse fetch (readAll parse chunks).task_id

/-- The value returned by the blocking path; `task_id` is `Option`-valued
because `response?.task_id` may be `undefined`, while `text` is always a
value thanks to the `|| ""` default. -/
structure BlockingResult where
  text : Json
  task_id : Option Json

/-- Lines 95–106 of `sdk/dify.js` (the non-streaming path of
`getWorkflowResult`): reject with `response.message` when the response
embeds a truthy `code`, otherwise resolve to
`{ text: response?.data?.outputs?.text || "", task_id: response?.task_id }`. -/
def getWorkflowResultBlocking (response : Json) : Except (Option Json) BlockingResult :=
  if jsTruthyOpt (getField response "code") then
    Except.error (getField response "message")
  else
    Except.ok
      { text := jsOr (((getField response "data").bind (fun d => getField d "outputs")).bind
                        (fun o => getField o "text")) (Json.str "")
        task_id := getField response "task_id" }

/-- The template literal of the thrown error on a non-2xx response
(line 48 of `sdk/dify.js` / line 138 of the route-table file):
method, pathname, status, status text and the best-effort body text
(`none`, a failed body read, degrades to the empty string). -/
def errorMessage (method pathname : String) (status : Nat) (statusText : String)
    (bodyText : Option String) : String :=
  method ++ " " ++ pathname ++ " 失败：" ++ toString status ++ " " ++ statusText ++ "\n"
    ++ bodyText.getD ""

/-- The transport-level outcome of one `fetch`: HTTP status data plus the
best-effort body reads (`bodyText` is the result of `res.text()`,
`jsonBody` of `res.json()`; `none` models a rejected read). -/
structure HttpResponse where
  ok : Bool
  status : Nat
  statusText : String
  bodyText : Option String
  jsonBody : Option Json

/-- What `sendRequest` / `_request` hands back on success: the raw stream
handle (`{ data: res.body }`) or the parsed JSON body. -/
inductive ReqValue where
  | streamBody
  | jsonData (j : Json)

/-- Response handling of `sendRequest` (route-table file, lines 134–147)
and `_request` (`sdk/dify.js`, lines 45–57), which are identical: throw a
descriptive error on a non-2xx status, hand back the stream when streaming
was requested, otherwise parse the JSON body, a failure degrading to the
empty object. -/
def sendRequest (method pathname : String) (stream : Bool) (res : HttpResponse) :
    Except String ReqValue :=
  if !res.ok then
    Except.error (errorMessage method pathname res.status res.statusText res.bodyText)
  else if stream then
    Except.ok ReqValue.streamBody
  else
    Except.ok (ReqValue.jsonData (res.jsonBody.getD (Json.obj [])))

/-- Lines 62–70 of `sdk/dify.js` (the `info` method): the resolved app
name.  The argument is the outcome of `_request "GET" "/info"`, whose `ok`
payload is the parsed JSON body `j` (so `r?.data?.name` is
`getField j "name"`).  Any thrown error is caught and resolved to the
placeholder, so the method is total — it never rejects. -/
def infoName (r : Except String Json) : Json :=
  match r with
  | .ok j =>
    jsOr (getField j "name")
      (jsOr ((getField j "data").bind (fun d => getField d "name")) (Json.str "Dify Workflow"))
  | .error _ => Json.str "Dify Workflow"

/-- Test fixture: a `JSON.parse` model defined on the handful of concrete
payloads used by witnesses and counterexamples (each entry is the value
`JSON.parse` gives on that input); every other string — in particular the
malformed payloads — maps to `none`, the parse exception. -/
def fixtureTable : List (String × Json) :=
  [("\x7b\"workflow_run_id\":\"a\"\x7d", Json.obj [("workflow_run_id", Json.str "a")]),
   ("\x7b\"workflow_run_id\":\"\"\x7d", Json.obj [("workflow_run_id", Json.str "")]),
   ("\x7b\"text\":\"hello\"\x7d", Json.obj [("text", Json.str "hello")])]

/-- The fixture parse function. -/
def fixtureParse : String → Option Json :=
  fun s => fixtureTable.lookup s

end DifySdk

namespace DifySdk

/-! General lemmas about the reassembler, shared by the claim theorems. -/

/-- Default-stripping step for `getLast?` under a cons. -/
theorem getLastD_cons {α : Type} (l : List α) (x d : α) :
    ((x :: l).getLast?).getD d = (l.getLast?).getD x := by
  induction l generalizing x d with
  | nil => rfl
  | cons y ys ih =>
    rw [List.getLast?_cons_cons, ih y d, ih y x]

/-- Cons step for the last element satisfying a predicate, with default. -/
theorem lastTruthy_cons {α : Type} (p : α → Bool) (v : α) (l : List α) (d : α) :
    (((v :: l).filter p).getLast?).getD d
      = ((l.filter p).getLast?).getD (if p v then v else d) := by
  by_cases h : p v
  · simp [List.filter_cons, h, getLastD_cons]
  · simp [List.filter_cons, h]

/-- Folding the identifier-capture step over a list of events computes the
last truthy `workflow_run_id` value, defaulting to the initial identifier. -/
theorem foldl_applyEvent (events : List Json) (tid : Json) :
    events.foldl applyEvent tid
      = (((runIdValues events).filter jsTruthy).getLast?).getD tid := by
  induction events generalizing tid with
  | nil => rfl
  | cons ev rest ih =>
    rw [List.foldl_cons, ih]
    cases h : getField ev "workflow_run_id" with
    | none =>
      have hr : runIdValues (ev :: rest) = runIdValues rest := by
        simp [runIdValues, List.filterMap_cons, h]
      have ha : applyEvent tid ev = tid := by simp [applyEvent, h]
      rw [hr, ha]
    | some v =>
      have hr : runIdValues (ev :: rest) = v :: runIdValues rest := by
        simp [runIdValues, List.filterMap_cons, h]
      have ha : applyEvent tid ev = if jsTruthy v then v else tid := by
        simp [applyEvent, h]
      rw [hr, ha, lastTruthy_cons]

/-- A line changes the captured identifier exactly through its parsed event. -/
theorem handleLine_eq_lineEvent (parse : String → Option Json) (tid : Json) (raw : List Char) :
    handleLine parse tid raw =
      match lineEvent parse raw with
      | some ev => applyEvent tid ev
      | none => tid := by
  unfold handleLine lineEvent
  dsimp only
  split_ifs <;> rfl

/-- Folding the line handler equals folding the capture step over the
parsed events of the lines. -/
theorem foldl_handleLine (parse : String → Option Json) (lines : List (List Char)) (tid : Json) :
    lines.foldl (handleLine parse) tid
      = (lines.filterMap (lineEvent parse)).foldl applyEvent tid := by
  induction lines generalizing tid with
  | nil => rfl
  | cons l ls ih =>
    rw [List.foldl_cons, List.filterMap_cons, ih, handleLine_eq_lineEvent]
    cases lineEvent parse l <;> rfl

/-- A newline-free buffer yields no complete line. -/
theorem extractLines_no_newline (m : List Char) (h : '\n' ∉ m) :
    extractLines m = ([], m) := by
  induction m with
  | nil => rfl
  | cons c rest ih =>
    have hc : ¬ c = '\n' := fun hc => h (hc ▸ List.mem_cons_self c rest)
    have hr : '\n' ∉ rest := fun hm => h (List.mem_cons_of_mem c hm)
    rw [extractLines, if_neg hc, ih hr]

/-- Splitting off the first complete line. -/
theorem extractLines_line (m rest : List Char) (h : '\n' ∉ m) :
    extractLines (m ++ '\n' :: rest)
      = (m :: (extractLines rest).1, (extractLines rest).2) := by
  induction m with
  | nil => simp [extractLines]
  | cons c cs ih =>
    have hc : ¬ c = '\n' := fun hc => h (hc ▸ List.mem_cons_self c cs)
    have hcs : '\n' ∉ cs := fun hm => h (List.mem_cons_of_mem c hm)
    rw [List.cons_append, extractLines, if_neg hc, ih hcs]

/-- Feeding one newline-terminated line to an empty buffer processes
exactly that line. -/
theorem processChunk_line (parse : String → Option Json) (tid : Json) (l : List Char)
    (h : '\n' ∉ l) :
    processChunk parse ⟨[], tid⟩ (l ++ ['\n']) = ⟨[], handleLine parse tid l⟩ := by
  unfold processChunk
  dsimp only
  rw [List.nil_append]
  have hsplit : (l ++ ['\n']) = l ++ '\n' :: [] := rfl
  rw [hsplit, extractLines_line l [] h]
  rfl

/-- Feeding newline-terminated lines one chunk each folds the line handler
over the lines. -/
theorem readAll_lines_aux (parse : String → Option Json) (lines : List (List Char)) (tid : Json)
    (h : ∀ l ∈ lines, '\n' ∉ l) :
    (lines.map (fun l => l ++ ['\n'])).foldl (processChunk parse) ⟨[], tid⟩
      = ⟨[], lines.foldl (handleLine parse) tid⟩ := by
  induction lines generalizing tid with
  | nil => rfl
  | cons l ls ih =>
    rw [List.map_cons, List.foldl_cons, List.foldl_cons,
      processChunk_line parse tid l (h l (List.mem_cons_self l ls))]
    exact ih (handleLine parse tid l) (fun x hx => h x (List.mem_cons_of_mem l hx))

/-- The captured identifier after any chunk sequence is the fold of the
capture step over the observed events. -/
theorem streamEventsAux_task_id (parse : String → Option Json) (cs : List (List Char))
    (buf : List Char) (tid : Json) :
    (cs.foldl (processChunk parse) ⟨buf, tid⟩).task_id
      = (streamEventsAux parse buf cs).foldl applyEvent tid := by
  induction cs generalizing buf tid with
  | nil => rfl
  | cons c cs ih =>
    rw [List.foldl_cons, streamEventsAux, List.foldl_append]
    show ((cs.foldl (processChunk parse) ⟨(extractLines (buf ++ c)).2, _⟩).task_id) = _
    rw [ih, foldl_handleLine]

/-- A trailing carriage return is removed by the right-trim. -/
theorem jsTrimEnd_append_cr (l : List Char) : jsTrimEnd (l ++ ['\r']) = jsTrimEnd l := by
  simp [jsTrimEnd, List.reverse_append, List.dropWhile_cons,
    show jsWhitespace '\r' = true from by decide]

/-- The line handler ignores a trailing carriage return. -/
theorem handleLine_cr (parse : String → Option Json) (tid : Json) (l : List Char) :
    handleLine parse tid (l ++ ['\r']) = handleLine parse tid l := by
  unfold handleLine
  rw [jsTrimEnd_append_cr]

/-- The observed event of a line ignores a trailing carriage return. -/
theorem lineEvent_cr (parse : String → Option Json) (l : List Char) :
    lineEvent parse (l ++ ['\r']) = lineEvent parse l := by
  unfold lineEvent
  rw [jsTrimEnd_append_cr]

/-- The events observed on newline-terminated single-line chunks are the
events of the individual lines. -/
theorem streamEvents_lines (parse : String → Option Json) (lines : List (List Char))
    (h : ∀ l ∈ lines, '\n' ∉ l) :
    streamEvents parse (lines.map (fun l => l ++ ['\n']))
      = lines.filterMap (lineEvent parse) := by
  unfold streamEvents
  induction lines with
  | nil => rfl
  | cons l ls ih =>
    rw [List.map_cons, streamEventsAux, List.nil_append,
      show l ++ ['\n'] = l ++ '\n' :: [] from rfl,
      extractLines_line l [] (h l (List.mem_cons_self l ls)),
      List.filterMap_cons]
    show ([l].filterMap (lineEvent parse)) ++ streamEventsAux parse [] (ls.map _) = _
    rw [ih (fun x hx => h x (List.mem_cons_of_mem l hx))]
    cases hv : lineEvent parse l <;> simp [List.filterMap_cons, hv]

/-- A list contains its last element. -/
theorem mem_of_getLast?_eq {α : Type} {l : List α} {a : α} (h : l.getLast? = some a) :
    a ∈ l := by
  induction l with
  | nil => exact absurd h (by simp)
  | cons x xs ih =>
    cases xs with
    | nil =>
      have hx : x = a := by
        have h' : some x = some a := h
        exact Option.some.inj h'
      exact hx ▸ List.mem_cons_self x []
    | cons y ys =>
      rw [List.getLast?_cons_cons] at h
      exact List.mem_cons_of_mem x (ih h)

end DifySdk

namespace DifySdk

/-! Claim theorems. -/

/-- C1 (amended): for every streamed sequence of well-formed `data:` lines
fed to the SSE reassembler, the captured run identifier equals the value of
the last truthy `workflow_run_id` field carried by any successfully parsed
event (later truthy values overwrite earlier ones; falsy field values are
ignored), defaulting to the initial empty string. -/
theorem capturedId_eq_last_truthy_runId (parse : String → Option Json)
    (lines : List (List Char)) (h : ∀ l ∈ lines, '\n' ∉ l) :
    (readAll parse (lines.map (fun l => l ++ ['\n']))).task_id
      = (((runIdValues (lines.filterMap (lineEvent parse))).filter jsTruthy).getLast?).getD
          (Json.str "") := by
  unfold readAll
  rw [show initState = (⟨[], Json.str ""⟩ : SSEState) from rfl,
    readAll_lines_aux parse lines (Json.str "") h]
  show lines.foldl (handleLine parse) (Json.str "") = _
  rw [foldl_handleLine, foldl_applyEvent]

/-- C1 (witness): a single event carrying `workflow_run_id` `"a"` is
captured. -/
theorem capturedId_eq_last_truthy_runId_witness :
    (readAll fixtureParse ["data: \x7b\"workflow_run_id\":\"a\"\x7d".data ++ ['\n']]).task_id
      = Json.str "a" :=
  (capturedId_eq_last_truthy_runId fixtureParse
    ["data: \x7b\"workflow_run_id\":\"a\"\x7d".data] (by decide)).trans rfl

/-- C1 (counterexample): after the events with `workflow_run_id` values
`"a"` then `""`, the captured identifier is `"a"`, while the last
`workflow_run_id` field value carried by a parsed event is `""` — so the
captured identifier is not the last field value seen. -/
theorem capturedId_last_value_counterexample :
    (readAll fixtureParse
        ["data: \x7b\"workflow_run_id\":\"a\"\x7d".data ++ ['\n'],
         "data: \x7b\"workflow_run_id\":\"\"\x7d".data ++ ['\n']]).task_id = Json.str "a"
    ∧ (runIdValues
        (["data: \x7b\"workflow_run_id\":\"a\"\x7d".data,
          "data: \x7b\"workflow_run_id\":\"\"\x7d".data].filterMap
            (lineEvent fixtureParse))).getLast? = some (Json.str "")
    ∧ Json.str "a" ≠ Json.str "" :=
  ⟨rfl, rfl, fun h => absurd (Json.str.inj h) (by decide)⟩

/-- C2: a `data: [DONE]` line never by itself terminates the read loop: the
sentinel line leaves the state unchanged, and the loop consumes reader
answers exactly up to the first end-of-data signal, processing every chunk
before it (wherever a `[DONE]` line may sit inside those chunks) and
stopping there. -/
theorem done_sentinel_never_terminates (parse : String → Option Json) (st : SSEState)
    (pre : List (List Char)) (post : List ReadResult) :
    (∀ tid : Json, handleLine parse tid ("data: [DONE]".data) = tid)
    ∧ readLoop parse st (pre.map ReadResult.chunk ++ ReadResult.eos :: post)
        = (pre.foldl (processChunk parse) st, post) := by
  constructor
  · intro tid; rfl
  · induction pre generalizing st with
    | nil => rfl
    | cons c cs ih =>
      rw [List.map_cons, List.cons_append, List.foldl_cons]
      show readLoop parse (processChunk parse st c) _ = _
      exact ih (processChunk parse st c)

/-- C3 (amended): if after the stream ends no run identifier was captured,
`getWorkflowResult` issues no follow-up request and returns the empty
identifier with an absent (`undefined`) `text` field — not the empty
string. -/
theorem no_runId_no_fetch_empty_result (parse : String → Option Json) (fetch : Json → Json)
    (chunks : List (List Char)) (h : (readAll parse chunks).task_id = Json.str "") :
    getWorkflowResultStream parse fetch chunks
      = (false, { text := none, task_id := Json.str "" }) := by
  unfold getWorkflowResultStream
  rw [h]
  rfl

/-- C3 (witness): on the empty stream nothing is captured, no request is
issued and the result is the empty identifier with no text. -/
theorem no_runId_no_fetch_empty_result_witness :
    getWorkflowResultStream fixtureParse (fun _ => Json.obj []) []
      = (false, { text := none, task_id := Json.str "" }) :=
  no_runId_no_fetch_empty_result fixtureParse (fun _ => Json.obj []) [] rfl

/-- C3 (counterexample): on the empty stream no identifier is captured and
the returned `text` field is `undefined` (`none`), not the empty string as
the claim states. -/
theorem no_runId_text_undefined_counterexample :
    (readAll fixtureParse []).task_id = Json.str ""
    ∧ (getWorkflowResultStream fixtureParse (fun _ => Json.obj []) []).2.text = none
    ∧ (getWorkflowResultStream fixtureParse (fun _ => Json.obj []) []).2.text
        ≠ some (Json.str "") :=
  ⟨rfl, rfl, fun h => Option.noConfusion h⟩

/-- C4: for every fetched final record whose `outputs` field is a non-empty
string, the reconciler issued the follow-up request and returns the `text`
field of the parsed string (fields counting as absent when the parse
fails, with no error raised) paired with the captured identifier. -/
theorem outputs_string_parsed (parse : String → Option Json) (fetch : Json → Json)
    (id : Json) (s : String) (h1 : jsTruthy id = true)
    (h2 : getField (fetch id) "outputs" = some (Json.str s)) (h3 : s ≠ "") :
    reconcile parse fetch id
      = (true, { text := getField ((parse s).getD (Json.obj [])) "text", task_id := id }) := by
  unfold reconcile
  dsimp only
  have ht : jsTruthy (Json.str s) = true := by
    simp [jsTruthy, bne_iff_ne, h3]
  simp only [h1, if_true, h2, ht]

/-- C4 (witness): an `outputs` string carrying serialized JSON with a
`text` field of `"hello"` and captured identifier `"t1"` yields exactly
that text paired with `"t1"`. -/
theorem outputs_string_parsed_witness :
    reconcile fixtureParse
        (fun _ => Json.obj [("outputs", Json.str "\x7b\"text\":\"hello\"\x7d")])
        (Json.str "t1")
      = (true, { text := some (Json.str "hello"), task_id := Json.str "t1" }) :=
  (outputs_string_parsed fixtureParse
    (fun _ => Json.obj [("outputs", Json.str "\x7b\"text\":\"hello\"\x7d")])
    (Json.str "t1") "\x7b\"text\":\"hello\"\x7d" rfl rfl (by decide)).trans rfl

/-- C5: a `data:` line whose payload is not `[DONE]` and fails to parse is
skipped: no error is raised and the captured identifier is exactly what it
was before. -/
theorem malformed_payload_skipped (parse : String → Option Json) (tid : Json) (raw : List Char)
    (h1 : "data:".data.isPrefixOf (jsTrimEnd raw) = true)
    (h2 : jsTrim ((jsTrimEnd raw).drop 5) ≠ "[DONE]".data)
    (h3 : parse (jsTrim ((jsTrimEnd raw).drop 5)).asString = none) :
    handleLine parse tid raw = tid := by
  have hp : "data:".data <+: jsTrimEnd raw := by
    rw [← List.isPrefixOf_iff_prefix]
    exact h1
  obtain ⟨t, ht⟩ := hp
  have hline : jsTrimEnd raw = 'd' :: 'a' :: 't' :: 'a' :: ':' :: t := by
    rw [← ht]; rfl
  rw [hline] at h2 h3
  unfold handleLine
  dsimp only
  rw [hline]
  rw [if_neg (c := ('d' :: 'a' :: 't' :: 'a' :: ':' :: t).isEmpty = true) (by simp)]
  rw [if_neg (c := ('d' :: 'a' :: 't' :: 'a' :: ':' :: t).head? = some ':') (by simp)]
  rw [if_pos (c := ("data:".data.isPrefixOf ('d' :: 'a' :: 't' :: 'a' :: ':' :: t)) = true)
    (by simp [show "data:".data = ['d', 'a', 't', 'a', ':'] from rfl])]
  rw [if_neg h2, h3]

/-- C5 (witness): the malformed payload `nonsense` is dropped and the
previously captured identifier survives. -/
theorem malformed_payload_skipped_witness :
    handleLine fixtureParse (Json.str "keep") "data: nonsense".data = Json.str "keep" :=
  malformed_payload_skipped fixtureParse (Json.str "keep") "data: nonsense".data
    (by decide) (by decide) rfl

/-- C6: a non-2xx response makes the request helper throw an error whose
message contains the request method, the request path, the decimal status
code and the status text; a failed body read degrades to the empty string
rather than a further error. -/
theorem request_error_message_fields (method pathname : String) (stream : Bool)
    (res : HttpResponse) (h : res.ok = false) :
    ∃ e, sendRequest method pathname stream res = Except.error e
      ∧ (∃ u v, e.data = u ++ method.data ++ v)
      ∧ (∃ u v, e.data = u ++ pathname.data ++ v)
      ∧ (∃ u v, e.data = u ++ (toString res.status).data ++ v)
      ∧ (∃ u v, e.data = u ++ res.statusText.data ++ v)
      ∧ (res.bodyText = none →
          e = errorMessage method pathname res.status res.statusText (some "")) := by
  refine ⟨errorMessage method pathname res.status res.statusText res.bodyText,
    ?_, ?_, ?_, ?_, ?_, ?_⟩
  · unfold sendRequest
    rw [h]
    rfl
  · exact ⟨[], (" " ++ pathname ++ " 失败：" ++ toString res.status ++ " " ++ res.statusText
      ++ "\n" ++ res.bodyText.getD "").data, by simp [errorMessage]⟩
  · exact ⟨(method ++ " ").data, (" 失败：" ++ toString res.status ++ " " ++ res.statusText
      ++ "\n" ++ res.bodyText.getD "").data, by simp [errorMessage]⟩
  · exact ⟨(method ++ " " ++ pathname ++ " 失败：").data, (" " ++ res.statusText
      ++ "\n" ++ res.bodyText.getD "").data, by simp [errorMessage]⟩
  · exact ⟨(method ++ " " ++ pathname ++ " 失败：" ++ toString res.status ++ " ").data,
      ("\n" ++ res.bodyText.getD "").data, by simp [errorMessage]⟩
  · intro hb
    simp [errorMessage, hb]

/-- C6 (witness): a 404 on `GET /info` with an unreadable body. -/
theorem request_error_message_fields_witness :
    ∃ e, sendRequest "GET" "/info" false ⟨false, 404, "Not Found", none, none⟩ = Except.error e
      ∧ (∃ u v, e.data = u ++ "GET".data ++ v)
      ∧ (∃ u v, e.data = u ++ "/info".data ++ v)
      ∧ (∃ u v, e.data = u ++ (toString (404 : Nat)).data ++ v)
      ∧ (∃ u v, e.data = u ++ "Not Found".data ++ v)
      ∧ ((none : Option String) = none →
          e = errorMessage "GET" "/info" 404 "Not Found" (some "")) :=
  request_error_message_fields "GET" "/info" false ⟨false, 404, "Not Found", none, none⟩ rfl

/-- C7: on the blocking path, a response embedding a truthy `code` field
makes the call reject with the embedded `message` value instead of
returning a result, and a response with no `code` field resolves to the
text (defaulting to the empty string) and task identifier drawn from the
response. -/
theorem blocking_code_rejects (response : Json) :
    (∀ c, getField response "code" = some c → jsTruthy c = true →
        getWorkflowResultBlocking response = Except.error (getField response "message"))
    ∧ (getField response "code" = none →
        getWorkflowResultBlocking response
          = Except.ok
              { text := jsOr (((getField response "data").bind (fun d => getField d "outputs")).bind
                                (fun o => getField o "text")) (Json.str "")
                task_id := getField response "task_id" }) := by
  constructor
  · intro c hc htr
    unfold getWorkflowResultBlocking
    rw [if_pos (by rw [hc]; exact htr)]
  · intro hc
    unfold getWorkflowResultBlocking
    rw [if_neg (by rw [hc]; simp [jsTruthyOpt])]

/-- C7 (witness): the response with code `E1` and message `bad input`
rejects carrying `bad input`; a code-less response resolves to its text and
task identifier. -/
theorem blocking_code_rejects_witness :
    getWorkflowResultBlocking (Json.obj [("code", Json.str "E1"), ("message", Json.str "bad input")])
        = Except.error (some (Json.str "bad input"))
    ∧ getWorkflowResultBlocking
          (Json.obj [("data", Json.obj [("outputs", Json.obj [("text", Json.str "ok")])]),
                     ("task_id", Json.str "t1")])
        = Except.ok { text := Json.str "ok", task_id := some (Json.str "t1") } :=
  ⟨((blocking_code_rejects
      (Json.obj [("code", Json.str "E1"), ("message", Json.str "bad input")])).1
        (Json.str "E1") rfl rfl).trans rfl,
   ((blocking_code_rejects
      (Json.obj [("data", Json.obj [("outputs", Json.obj [("text", Json.str "ok")])]),
                 ("task_id", Json.str "t1")])).2 rfl).trans rfl⟩

/-- C8: a parsed event whose `workflow_run_id` field is present but falsy
leaves the captured identifier unchanged, so after any stream the captured
identifier is either the initial empty string or a truthy
`workflow_run_id` value carried by some successfully parsed event of the
stream. -/
theorem capturedId_truthy_invariant :
    (∀ tid ev v : Json, getField ev "workflow_run_id" = some v → jsTruthy v = false →
        applyEvent tid ev = tid)
    ∧ ∀ (parse : String → Option Json) (chunks : List (List Char)),
        (readAll parse chunks).task_id = Json.str ""
        ∨ (jsTruthy (readAll parse chunks).task_id = true
            ∧ ∃ ev ∈ streamEvents parse chunks,
                getField ev "workflow_run_id" = some (readAll parse chunks).task_id) := by
  constructor
  · intro tid ev v h hv
    simp [applyEvent, h, hv]
  · intro parse chunks
    have hta : (readAll parse chunks).task_id
        = (((runIdValues (streamEvents parse chunks)).filter jsTruthy).getLast?).getD
            (Json.str "") := by
      unfold readAll streamEvents
      rw [show initState = (⟨[], Json.str ""⟩ : SSEState) from rfl,
        streamEventsAux_task_id, foldl_applyEvent]
    cases hl : ((runIdValues (streamEvents parse chunks)).filter jsTruthy).getLast? with
    | none => exact Or.inl (by rw [hta, hl]; rfl)
    | some a =>
      have ha : (readAll parse chunks).task_id = a := by rw [hta, hl]; rfl
      have hmemf := mem_of_getLast?_eq hl
      have hmem := List.mem_filter.mp hmemf
      obtain ⟨ev, hev, hg⟩ := List.mem_filterMap.mp hmem.1
      refine Or.inr ⟨by rw [ha]; exact hmem.2, ev, hev, by rw [ha]; exact hg⟩

/-- C8 (witness): an event carrying the falsy `workflow_run_id` value `""`
does not overwrite the previously captured `"a"`. -/
theorem capturedId_truthy_invariant_witness :
    applyEvent (Json.str "a") (Json.obj [("workflow_run_id", Json.str "")]) = Json.str "a" :=
  capturedId_truthy_invariant.1 (Json.str "a") (Json.obj [("workflow_run_id", Json.str "")])
    (Json.str "") rfl rfl

/-- C9: because each logical line is right-trimmed before any prefix test
or payload extraction, a CRLF-delimited event stream is processed exactly
like the same lines delimited by bare LF: the final reassembler state and
the parsed events coincide. -/
theorem crlf_lf_equivalent (parse : String → Option Json) (lines : List (List Char))
    (h : ∀ l ∈ lines, '\n' ∉ l) :
    readAll parse (lines.map (fun l => l ++ ['\r', '\n']))
        = readAll parse (lines.map (fun l => l ++ ['\n']))
    ∧ streamEvents parse (lines.map (fun l => l ++ ['\r', '\n']))
        = streamEvents parse (lines.map (fun l => l ++ ['\n'])) := by
  have hmap : lines.map (fun l => l ++ ['\r', '\n'])
      = (lines.map (fun l => l ++ ['\r'])).map (fun l => l ++ ['\n']) := by
    rw [List.map_map]
    exact List.map_congr_left (fun l _ => by simp)
  have h' : ∀ l ∈ lines.map (fun l => l ++ ['\r']), '\n' ∉ l := by
    intro x hx
    obtain ⟨l, hl, rfl⟩ := List.mem_map.mp hx
    intro hmem
    rcases List.mem_append.mp hmem with hmem1 | hmem2
    · exact h l hl hmem1
    · simp at hmem2
  have hfun : (fun (t : Json) (l : List Char) => handleLine parse t (l ++ ['\r']))
      = fun t l => handleLine parse t l :=
    funext fun t => funext fun l => handleLine_cr parse t l
  have hfun2 : (fun (l : List Char) => lineEvent parse (l ++ ['\r'])) = lineEvent parse :=
    funext fun l => lineEvent_cr parse l
  constructor
  · rw [hmap]
    unfold readAll
    rw [show initState = (⟨[], Json.str ""⟩ : SSEState) from rfl,
      readAll_lines_aux parse _ (Json.str "") h', readAll_lines_aux parse lines (Json.str "") h,
      List.foldl_map]
    show SSEState.mk [] (lines.foldl (fun t l => handleLine parse t (l ++ ['\r'])) (Json.str ""))
      = _
    rw [hfun]
  · rw [hmap, streamEvents_lines parse _ h', streamEvents_lines parse lines h,
      List.filterMap_map]
    show lines.filterMap (fun l => lineEvent parse (l ++ ['\r'])) = _
    rw [hfun2]

/-- C9 (witness): a concrete event line behaves identically under CRLF and
LF delimiters. -/
theorem crlf_lf_equivalent_witness :
    readAll fixtureParse ["data: \x7b\"workflow_run_id\":\"a\"\x7d".data ++ ['\r', '\n']]
        = readAll fixtureParse ["data: \x7b\"workflow_run_id\":\"a\"\x7d".data ++ ['\n']]
    ∧ streamEvents fixtureParse ["data: \x7b\"workflow_run_id\":\"a\"\x7d".data ++ ['\r', '\n']]
        = streamEvents fixtureParse ["data: \x7b\"workflow_run_id\":\"a\"\x7d".data ++ ['\n']] :=
  crlf_lf_equivalent fixtureParse ["data: \x7b\"workflow_run_id\":\"a\"\x7d".data] (by decide)

/-- C10 (amended): `info` never rejects, and the resolved name is exactly
the first truthy value of the `||` chain: a truthy `data.name` is returned
as-is (taking priority over everything else); when `data.name` is absent or
falsy, a truthy `data.data.name` is returned; when both candidates are
absent or falsy — and on any thrown request error — the placeholder
`Dify Workflow` is returned.  The resolved name is always truthy. -/
theorem infoName_first_truthy (r : Except String Json) :
    jsTruthy (infoName r) = true
    ∧ (∀ e, r = Except.error e → infoName r = Json.str "Dify Workflow")
    ∧ ∀ j, r = Except.ok j →
        (∀ v, getField j "name" = some v → jsTruthy v = true → infoName r = v)
        ∧ (jsTruthyOpt (getField j "name") = false →
            (∀ w, (getField j "data").bind (fun d => getField d "name") = some w →
                jsTruthy w = true → infoName r = w)
            ∧ (jsTruthyOpt ((getField j "data").bind (fun d => getField d "name")) = false →
                infoName r = Json.str "Dify Workflow")) := by
  cases r with
  | error e =>
    exact ⟨rfl, fun e' he => rfl, fun j hj => Except.noConfusion hj⟩
  | ok j =>
    have L1 : ∀ v, getField j "name" = some v → jsTruthy v = true →
        infoName (Except.ok j) = v := by
      intro v h htr
      simp [infoName, jsOr, h, htr]
    have L2 : ∀ w, jsTruthyOpt (getField j "name") = false →
        (getField j "data").bind (fun d => getField d "name") = some w →
        jsTruthy w = true → infoName (Except.ok j) = w := by
      intro w hf h2 hw
      cases h1 : getField j "name" with
      | none => simp [infoName, jsOr, h1, h2, hw]
      | some v =>
        have hv : jsTruthy v = false := by rw [h1] at hf; exact hf
        simp [infoName, jsOr, h1, h2, hv, hw]
    have L3 : jsTruthyOpt (getField j "name") = false →
        jsTruthyOpt ((getField j "data").bind (fun d => getField d "name")) = false →
        infoName (Except.ok j) = Json.str "Dify Workflow" := by
      intro hf1 hf2
      cases h1 : getField j "name" with
      | none =>
        cases h2 : (getField j "data").bind (fun d => getField d "name") with
        | none => simp [infoName, jsOr, h1, h2]
        | some w =>
          have hw : jsTruthy w = false := by rw [h2] at hf2; exact hf2
          simp [infoName, jsOr, h1, h2, hw]
      | some v =>
        have hv : jsTruthy v = false := by rw [h1] at hf1; exact hf1
        cases h2 : (getField j "data").bind (fun d => getField d "name") with
        | none => simp [infoName, jsOr, h1, h2, hv]
        | some w =>
          have hw : jsTruthy w = false := by rw [h2] at hf2; exact hf2
          simp [infoName, jsOr, h1, h2, hv, hw]
    have Ltr : jsTruthy (infoName (Except.ok j)) = true := by
      cases h1 : getField j "name" with
      | some v =>
        by_cases hv : jsTruthy v = true
        · rw [L1 v h1 hv]; exact hv
        · have hv' : jsTruthy v = false := Bool.eq_false_iff.mpr hv
          have hf1 : jsTruthyOpt (getField j "name") = false := by rw [h1]; exact hv'
          cases h2 : (getField j "data").bind (fun d => getField d "name") with
          | some w =>
            by_cases hw : jsTruthy w = true
            · rw [L2 w hf1 h2 hw]; exact hw
            · have hw' : jsTruthy w = false := Bool.eq_false_iff.mpr hw
              have hf2 : jsTruthyOpt ((getField j "data").bind (fun d => getField d "name"))
                  = false := by rw [h2]; exact hw'
              rw [L3 hf1 hf2]; rfl
          | none =>
            have hf2 : jsTruthyOpt ((getField j "data").bind (fun d => getField d "name"))
                = false := by rw [h2]; rfl
            rw [L3 hf1 hf2]; rfl
      | none =>
        have hf1 : jsTruthyOpt (getField j "name") = false := by rw [h1]; rfl
        cases h2 : (getField j "data").bind (fun d => getField d "name") with
        | some w =>
          by_cases hw : jsTruthy w = true
          · rw [L2 w hf1 h2 hw]; exact hw
          · have hw' : jsTruthy w = false := Bool.eq_false_iff.mpr hw
            have hf2 : jsTruthyOpt ((getField j "data").bind (fun d => getField d "name"))
                = false := by rw [h2]; exact hw'
            rw [L3 hf1 hf2]; rfl
        | none =>
          have hf2 : jsTruthyOpt ((getField j "data").bind (fun d => getField d "name"))
              = false := by rw [h2]; rfl
          rw [L3 hf1 hf2]; rfl
    refine ⟨Ltr, fun e' he => Except.noConfusion he, fun j' hj => ?_⟩
    injection hj with hji
    subst hji
    exact ⟨L1, fun hf1 => ⟨fun w h2 hw => L2 w hf1 h2 hw, fun hf2 => L3 hf1 hf2⟩⟩

/-- C10 (witness): a truthy `data.name` of `"A"` takes priority over a
nested `"B"`, and a present-but-falsy `data.name` of `""` falls through to
the truthy nested `data.data.name` of `"N"`. -/
theorem infoName_first_truthy_witness :
    infoName (Except.ok (Json.obj [("name", Json.str "A"),
        ("data", Json.obj [("name", Json.str "B")])])) = Json.str "A"
    ∧ infoName (Except.ok (Json.obj [("name", Json.str ""),
        ("data", Json.obj [("name", Json.str "N")])])) = Json.str "N" :=
  ⟨((infoName_first_truthy (Except.ok (Json.obj [("name", Json.str "A"),
        ("data", Json.obj [("name", Json.str "B")])]))).2.2 _ rfl).1 (Json.str "A") rfl rfl,
   (((infoName_first_truthy (Except.ok (Json.obj [("name", Json.str ""),
        ("data", Json.obj [("name", Json.str "N")])]))).2.2 _ rfl).2 rfl).1
      (Json.str "N") rfl rfl⟩

/-- C10 (counterexample): a response whose `name` field holds the truthy
non-string value `true` resolves to that value, which is not a string at
all — refuting the claim that the resolved name is always a non-empty
string. -/
theorem infoName_string_counterexample :
    infoName (Except.ok (Json.obj [("name", Json.bool true)])) = Json.bool true
    ∧ ¬ ∃ s : String, infoName (Except.ok (Json.obj [("name", Json.bool true)])) = Json.str s :=
  ⟨rfl, fun hex => match hex with | ⟨_, h⟩ => Json.noConfusion h⟩

end DifySdk
